import Mathlib

/-!
Shallow embedding of the `malignius` test-data factory framework
(`src/lib.rs`, `src/associations.rs`, `src/sequence.rs`) and of the
entity types defined in its test suite, together with theorems settling
the specification claims.

Modelling conventions:
* The opaque store handle (`Arc<Connection>` in the source) is modelled as an
  explicit state `σ` threaded through every persistence step; store writes are
  observable as changes to `σ`.  The test entities use `σ := List Row`, an
  append-only insert log, mirroring the rows the SQLite test store receives.
* `async` + sequential `await` is modelled as ordinary sequential execution:
  each step runs to completion before the next starts, exactly as the drain
  loop in `persist_with` awaits each future before the next.
* A fallible persistence step returns `PResult ε σ α`: `ok value store`,
  `err error store` (a returned `Result::Err`; the store keeps whatever was
  already written, since the source never rolls back), or `panicked msg store`
  (a Rust panic, as produced by the `.unwrap()` in the drain loop of
  `persist_with`, carrying the message derived from the unwrapped error).
* The `Box<dyn Any>` success value of a pending operation is never downcast or
  inspected anywhere in the source (the drain loop discards it), so it is
  modelled as `Unit`.  The `entity_type : TypeId` tag of `AnyAssociation` is
  never read by any code path and is elided for the same reason.
-/

set_option autoImplicit false

namespace Malignius

universe u

/-- Result of a fallible persistence step: `Result<α, ε>` in the source,
extended with the store state `σ` after the step (writes already performed
remain in the store even on failure) and with a `panicked` outcome modelling
a Rust panic such as the `.unwrap()` in `persist_with`. -/
inductive PResult (ε σ α : Type) where
  | ok : α → σ → PResult ε σ α
  | err : ε → σ → PResult ε σ α
  | panicked : String → σ → PResult ε σ α
deriving Repr

/-- A type-erased pending operation, the `persist` field of `AnyAssociation`:
a one-shot function from the (cloned) store handle to a future yielding
`Result<Box<dyn Any>, Box<dyn std::error::Error>>`.  The erased success value
is `Unit` and the boxed error is a `String`. -/
abbrev PendingOp (σ : Type) : Type := σ → PResult String σ Unit

/-- Erasure performed by `Associations::persist` when it boxes the produced
value as `Box<dyn Any>`: the success value is forgotten, errors and panics
pass through unchanged. -/
def eraseVal {σ α : Type} : PResult String σ α → PResult String σ Unit
  | .ok _ s => .ok () s
  | .err e s => .err e s
  | .panicked m s => .panicked m s

/-- The association registry `Associations<Conn>`: an ordered list of
type-erased pending persistence operations. -/
structure Associations (σ : Type) where
  associations : List (PendingOp σ)

/-- `Associations::new`: the empty registry. -/
def Associations.new {σ : Type} : Associations σ :=
  { associations := [] }

/-- `Associations::persist::<T, F>`: pushes one pending operation onto the end
of the registry, wrapping the supplied closure so that its success value is
erased (`Ok(Box::new(value) as Box<dyn Any>)`). -/
def Associations.persist {σ α : Type} (r : Associations σ)
    (f : σ → PResult String σ α) : Associations σ :=
  { associations := r.associations ++ [fun s => eraseVal (f s)] }

/-- The `Manifest` trait for one entity type: the default `Overrides` value
(`T::Overrides::default()`) together with
`fn manifest(overrides) -> (Self, Associations<Conn>)`. -/
structure ManifestImpl (σ T O : Type) where
  defaultOverrides : O
  manifest : O → T × Associations σ

/-- The `Persist` trait for one entity type:
`async fn persist(conn, entity) -> Result<Self, Err>`, with the store handle
modelled as explicit state. -/
structure PersistImpl (σ ε T : Type) where
  persist : σ → T → PResult ε σ T

/-- `manifest_with::<T>(overrides)`: run `T::manifest` and discard the
registry, returning only the in-memory entity. -/
def manifest_with {σ T O : Type} (m : ManifestImpl σ T O) (overrides : O) : T :=
  (m.manifest overrides).1

/-- `manifest::<T>()`: `manifest_with` at the default overrides. -/
def manifest {σ T O : Type} (m : ManifestImpl σ T O) : T :=
  manifest_with m m.defaultOverrides

/-- The drain loop of `persist_with`: run each pending operation in list
order, `.unwrap()`-ing its result — an `Err` from an operation therefore
panics with that error as the message, and a panic from inside an operation
propagates.  The loop yields the final store state when every operation
succeeded. -/
def runPending {σ : Type} : List (PendingOp σ) → σ → PResult Empty σ Unit
  | [], s => .ok () s
  | op :: rest, s =>
    match op s with
    | .ok _ s' => runPending rest s'
    | .err e s' => .panicked e s'
    | .panicked m s' => .panicked m s'

/-- `persist_with::<T>(conn, overrides)`: manifest the root entity, drain its
registry in registration order, then invoke the root entity's own persistence
capability. -/
def persist_with {σ ε T O : Type} (m : ManifestImpl σ T O)
    (p : PersistImpl σ ε T) (overrides : O) (s : σ) : PResult ε σ T :=
  let q := m.manifest overrides
  match runPending q.2.associations s with
  | .ok _ s' => p.persist s' q.1
  | .err e _ => nomatch e
  | .panicked msg s' => .panicked msg s'

/-- `persist::<T>(conn)`: `persist_with` at the default overrides. -/
def persist {σ ε T O : Type} (m : ManifestImpl σ T O)
    (p : PersistImpl σ ε T) (s : σ) : PResult ε σ T :=
  persist_with m p m.defaultOverrides s

/-- Body of the closure `association` registers: re-run the full
`persist::<T>` cycle at default overrides, replacing any error it returns by
`map_err` with the fixed message `failed to persist` (a panic from inside
that cycle propagates and is not mapped). -/
def assocDeferred {σ ε T O : Type} (m : ManifestImpl σ T O)
    (p : PersistImpl σ ε T) (conn : σ) : PResult String σ T :=
  match persist m p conn with
  | .ok v s' => .ok v s'
  | .err _ s' => .err "failed to persist" s'
  | .panicked msg s' => .panicked msg s'

/-- `association::<T>(&mut associations)`: immediately manifest `T` with
default overrides and return that value, and append one pending operation
that runs `assocDeferred`, the deferred full manifest-and-persist cycle. -/
def association {σ ε T O : Type} (m : ManifestImpl σ T O)
    (p : PersistImpl σ ε T) (assocs : Associations σ) : T × Associations σ :=
  let entity := manifest m
  (entity, assocs.persist (assocDeferred m p))

/-- The sequence generator `Sequence<T>`: a counter plus a production
function. -/
structure Sequence (α : Type u) where
  counter : Nat
  produce : Nat → α

/-- `Sequence::new`: counter starts at 1. -/
def Sequence.new {α : Type u} (produce : Nat → α) : Sequence α :=
  { counter := 1, produce := produce }

/-- `Sequence::next`: return `produce(counter)` and increment the counter. -/
def Sequence.next {α : Type u} (s : Sequence α) : α × Sequence α :=
  (s.produce s.counter, { s with counter := s.counter + 1 })

/-- `Sequence::take(n)`: the `for _ in 0..n` loop pushing `self.next()` onto
a growing vector. -/
def Sequence.take {α : Type u} (s : Sequence α) (n : Nat) : List α × Sequence α :=
  (List.range n).foldl
    (fun acc _ =>
      let r := acc.2.next
      (acc.1 ++ [r.1], r.2))
    ([], s)

/-- Specification-side description of `k` successive calls to `next`,
collecting the returned values in call order. -/
def Sequence.nextCalls {α : Type u} : Sequence α → Nat → List α × Sequence α
  | s, 0 => ([], s)
  | s, k + 1 =>
    let r := s.next
    let rest := r.2.nextCalls k
    (r.1 :: rest.1, rest.2)

/-- A row of the test store: one insert statement executed by an entity's
`Persist` implementation, carrying the bound parameters. -/
inductive Row where
  | movie : String → Nat → Row
  | author : Nat → String → Row
  | post : Nat → Nat → String → Row
  | comment : Nat → Nat → String → Row
deriving DecidableEq, Repr

/-- The test store: the ordered log of rows inserted through the connection. -/
abbrev Store : Type := List Row

/-- `MovieBuilder` (derive_builder): every field optional, default all-unset. -/
structure MovieBuilder where
  title : Option String := none
  year : Option Nat := none
deriving DecidableEq, Repr

/-- The `Movie` test entity. -/
structure Movie where
  title : String
  year : Nat
deriving DecidableEq, Repr

/-- `impl Manifest for Movie`: defaults title `Inception`, year 2010, no
associations. -/
def Movie.manifest (overrides : MovieBuilder) : Movie × Associations Store :=
  ({ title := overrides.title.getD "Inception",
     year := overrides.year.getD 2010 },
   Associations.new)

/-- The `Manifest` dictionary for `Movie`. -/
def Movie.manifestImpl : ManifestImpl Store Movie MovieBuilder :=
  { defaultOverrides := {}, manifest := Movie.manifest }

/-- `impl Persist for Movie`: insert one `movie` row. -/
def Movie.persistImpl : PersistImpl Store String Movie :=
  { persist := fun conn movie =>
      .ok movie (conn ++ [Row.movie movie.title movie.year]) }

/-- `AuthorBuilder`: every field optional, default all-unset. -/
structure AuthorBuilder where
  id : Option Nat := none
  name : Option String := none
deriving DecidableEq, Repr

/-- The `Author` test entity (`AuthorId` is a `u32` newtype, modelled as a
`Nat`). -/
structure Author where
  id : Nat
  name : String
deriving DecidableEq, Repr

/-- `impl Manifest for Author`: defaults id 1, name `Author 1`, no
associations. -/
def Author.manifest (overrides : AuthorBuilder) : Author × Associations Store :=
  ({ id := overrides.id.getD 1,
     name := overrides.name.getD "Author 1" },
   Associations.new)

/-- The `Manifest` dictionary for `Author`. -/
def Author.manifestImpl : ManifestImpl Store Author AuthorBuilder :=
  { defaultOverrides := {}, manifest := Author.manifest }

/-- `impl Persist for Author`: insert one `author` row. -/
def Author.persistImpl : PersistImpl Store String Author :=
  { persist := fun conn author =>
      .ok author (conn ++ [Row.author author.id author.name]) }

/-- `PostBuilder`: every field optional, default all-unset. -/
structure PostBuilder where
  id : Option Nat := none
  author_id : Option Nat := none
  title : Option String := none
deriving DecidableEq, Repr

/-- The `Post` test entity. -/
structure Post where
  id : Nat
  author_id : Nat
  title : String
deriving DecidableEq, Repr

/-- `impl Manifest for Post`: the default `author_id` is resolved lazily
(`unwrap_or_else`) through `association::<Author>`, which also registers the
deferred persist of that author. -/
def Post.manifest (overrides : PostBuilder) : Post × Associations Store :=
  let associations : Associations Store := Associations.new
  let r : Nat × Associations Store :=
    match overrides.author_id with
    | some a => (a, associations)
    | none =>
      let q := association Author.manifestImpl Author.persistImpl associations
      (q.1.id, q.2)
  ({ id := overrides.id.getD 1,
     author_id := r.1,
     title := overrides.title.getD "Post 1" },
   r.2)

/-- The `Manifest` dictionary for `Post`. -/
def Post.manifestImpl : ManifestImpl Store Post PostBuilder :=
  { defaultOverrides := {}, manifest := Post.manifest }

/-- `impl Persist for Post`: insert one `post` row. -/
def Post.persistImpl : PersistImpl Store String Post :=
  { persist := fun conn post =>
      .ok post (conn ++ [Row.post post.id post.author_id post.title]) }

/-- `CommentBuilder`: every field optional, default all-unset. -/
structure CommentBuilder where
  id : Option Nat := none
  post_id : Option Nat := none
  username : Option String := none
deriving DecidableEq, Repr

/-- The `Comment` test entity. -/
structure Comment where
  id : Nat
  post_id : Nat
  username : String
deriving DecidableEq, Repr

/-- `impl Manifest for Comment`: the default `post_id` is resolved lazily
through `association::<Post>`. -/
def Comment.manifest (overrides : CommentBuilder) : Comment × Associations Store :=
  let associations : Associations Store := Associations.new
  let r : Nat × Associations Store :=
    match overrides.post_id with
    | some pid => (pid, associations)
    | none =>
      let q := association Post.manifestImpl Post.persistImpl associations
      (q.1.id, q.2)
  ({ id := overrides.id.getD 1,
     post_id := r.1,
     username := overrides.username.getD "user1" },
   r.2)

/-- The `Manifest` dictionary for `Comment`. -/
def Comment.manifestImpl : ManifestImpl Store Comment CommentBuilder :=
  { defaultOverrides := {}, manifest := Comment.manifest }

/-- `impl Persist for Comment`: insert one `comment` row. -/
def Comment.persistImpl : PersistImpl Store String Comment :=
  { persist := fun conn comment =>
      .ok comment (conn ++ [Row.comment comment.id comment.post_id comment.username]) }

/-- Persistence capability of level `n` of a generic dependency chain: write
the marker `n` into a `List Nat` store. -/
def chainPersistImpl (n : Nat) : PersistImpl (List Nat) String Nat :=
  { persist := fun conn e => .ok e (conn ++ [n]) }

/-- Manifesting capability of level `n` of a generic dependency chain of
depth `n`: level 0 declares no associations, level `n + 1` declares exactly
one association on level `n`, exactly as `Comment.manifest` depends on `Post`
and `Post.manifest` on `Author`. -/
def chainManifestImpl : Nat → ManifestImpl (List Nat) Nat Unit
  | 0 => { defaultOverrides := (), manifest := fun _ => (0, Associations.new) }
  | n + 1 =>
    { defaultOverrides := ()
      manifest := fun _ =>
        let q := association (chainManifestImpl n) (chainPersistImpl n) Associations.new
        (n + 1, q.2) }

/-- A pending operation that always succeeds, performing the store write
`f`. -/
def okOp {σ : Type} (f : σ → σ) : PendingOp σ :=
  fun s => .ok () (f s)

/-- A `ManifestImpl` with the registry component replaced: same entity for
every overrides value, arbitrary registry contents. -/
def withRegistry {σ T O : Type} (m : ManifestImpl σ T O)
    (g : O → Associations σ) : ManifestImpl σ T O :=
  { defaultOverrides := m.defaultOverrides
    manifest := fun o => ((m.manifest o).1, g o) }

/-- Fixture: the two store writes of `fixtureManifestImpl`, in registration
order. -/
def fixtureOps : List (List Nat → List Nat) :=
  [fun s => s ++ [10], fun s => s ++ [20]]

/-- Fixture: an entity type whose registry holds the two always-succeeding
pending operations of `fixtureOps`. -/
def fixtureManifestImpl : ManifestImpl (List Nat) Unit Unit :=
  { defaultOverrides := ()
    manifest := fun _ => ((), { associations := fixtureOps.map okOp }) }

/-- Fixture: a root persistence capability writing the marker 99. -/
def fixturePersistImpl : PersistImpl (List Nat) String Unit :=
  { persist := fun conn _ => .ok () (conn ++ [99]) }

/-- Fixture: an `Author` persistence capability whose store write always
fails with a descriptive error, modelling a constraint violation reported by
the backing store. -/
def failingAuthorPersistImpl : PersistImpl Store String Author :=
  { persist := fun conn _ => .err "constraint violation on author name" conn }

/-- Fixture: a `Post`-like entity whose manifesting registers an association
on an `Author` whose persistence capability fails. -/
def failingDepManifestImpl : ManifestImpl Store Post PostBuilder :=
  { defaultOverrides := {}
    manifest := fun overrides =>
      let associations : Associations Store := Associations.new
      let q := association Author.manifestImpl failingAuthorPersistImpl associations
      ({ id := overrides.id.getD 1,
         author_id := q.1.id,
         title := overrides.title.getD "Post 1" },
       q.2) }

/-! ### Helper lemmas -/

/-- Closed form of `j` successive `next` calls: starting from counter `c`,
they return `produce c, produce (c+1), ...` and leave the counter at `c + j`. -/
theorem Sequence.nextCalls_closed {α : Type u} (f : Nat → α) (c k : Nat) :
    (Sequence.mk c f).nextCalls k = ((List.range' c k).map f, Sequence.mk (c + k) f) := by
  induction k generalizing c with
  | zero => rfl
  | succ k ih =>
    have hc : c + 1 + k = c + (k + 1) := by omega
    simp only [Sequence.nextCalls, Sequence.next, List.range', List.map_cons, ih (c + 1), hc]

/-- Closed form of `take`: it returns the same values and final state as the
corresponding block of `next` calls. -/
theorem Sequence.take_closed {α : Type u} (f : Nat → α) (c n : Nat) :
    (Sequence.mk c f).take n = ((List.range' c n).map f, Sequence.mk (c + n) f) := by
  induction n with
  | zero => rfl
  | succ n ih =>
    have hc : c + 1 * n = c + n := by omega
    have hc' : c + n + 1 = c + (n + 1) := by omega
    simp only [Sequence.take, List.range_succ, List.foldl_append, List.foldl_cons,
      List.foldl_nil] at ih ⊢
    rw [ih]
    simp only [Sequence.next, List.range'_concat, List.map_append, List.map_cons,
      List.map_nil, hc, hc']

/-- Draining a list of always-succeeding operations applies each store write
exactly once, in list order: the final store is the left fold of the writes. -/
theorem runPending_okOps {σ : Type} (fs : List (σ → σ)) (s : σ) :
    runPending (fs.map okOp) s = .ok () (fs.foldl (fun st f => f st) s) := by
  induction fs generalizing s with
  | nil => rfl
  | cons f fs ih => simpa [runPending, okOp] using ih (f s)

/-- Draining stops at the first failing operation: the `.unwrap()` panics
with that operation's error, and no later operation runs. -/
theorem runPending_stops_at_error {σ : Type} (fs : List (σ → σ)) (msg : String)
    (g : σ → σ) (rest : List (PendingOp σ)) (s : σ) :
    runPending (fs.map okOp ++ (fun st => PResult.err msg (g st)) :: rest) s =
      .panicked msg (g (fs.foldl (fun st f => f st) s)) := by
  induction fs generalizing s with
  | nil => rfl
  | cons f fs ih => simpa [runPending, okOp] using ih (f s)

/-- Persisting level `n` of the generic dependency chain writes the markers
`0, 1, ..., n` — each dependency strictly before its dependent, the root
last — and succeeds with the root entity. -/
theorem chain_persist_trace (n : Nat) (s : List Nat) :
    persist (chainManifestImpl n) (chainPersistImpl n) s =
      PResult.ok n (s ++ List.range (n + 1)) := by
  induction n generalizing s with
  | zero => rfl
  | succ n ih =>
    have step : assocDeferred (chainManifestImpl n) (chainPersistImpl n) s =
        PResult.ok n (s ++ List.range (n + 1)) := by
      simp only [assocDeferred, ih s]
    show persist_with _ _ _ _ = _
    simp only [persist_with, chainManifestImpl, association, Associations.persist,
      Associations.new, List.nil_append, runPending]
    rw [step]
    simp only [eraseVal, runPending, chainPersistImpl]
    rw [List.range_succ (n := n + 1), ← List.append_assoc]

/-!
### Claim theorems
-/

/-- C1: for every entity type and every overrides value, `persist_with` (and
`persist`, which is `persist_with` at the default overrides) applies each
pending store write in the manifested registry exactly once, in exactly the
order in which the operations were appended — the store reaching the root
persistence step is the left fold of the writes in list order, so each
operation runs to completion before the next starts — and invokes the
entity's own persistence capability on the root entity strictly after all of
them.  Moreover `Associations.persist`, the registry's sole mutator, only
ever appends a single operation at the end, preserving all earlier
entries. -/
theorem claim_C1_persist_runs_registry_in_order_then_root
    {σ T O ε α : Type} (m : ManifestImpl σ T O) (p : PersistImpl σ ε T)
    (overrides : O) (s : σ) (entity : T) (fs : List (σ → σ))
    (h : m.manifest overrides = (entity, { associations := fs.map okOp })) :
    persist_with m p overrides s =
      p.persist (fs.foldl (fun st f => f st) s) entity
    ∧ persist m p s = persist_with m p m.defaultOverrides s
    ∧ ∀ (r : Associations σ) (g : σ → PResult String σ α),
        (r.persist g).associations = r.associations ++ [fun st => eraseVal (g st)] := by
  refine ⟨?_, rfl, fun r g => rfl⟩
  simp only [persist_with, h, runPending_okOps]

/-- Witness for C1 at a concrete entity with two pending writes. -/
theorem claim_C1_witness :
    persist_with fixtureManifestImpl fixturePersistImpl () [] =
      fixturePersistImpl.persist (fixtureOps.foldl (fun st f => f st) []) () :=
  (claim_C1_persist_runs_registry_in_order_then_root (α := String)
    fixtureManifestImpl fixturePersistImpl () [] () fixtureOps rfl).1

/-- C2: a dependency chain of depth `N` persists exactly `N + 1` records,
each dependency's write strictly before its dependent's (the trace is
`0, 1, ..., N` with the root last); concretely, persisting a default
`Comment` inserts exactly three rows, in order Author, Post, Comment, with
the Comment's `post_id` equal to the inserted Post's id (1) and the Post's
`author_id` equal to the inserted Author's id (1). -/
theorem claim_C2_chain_depth_writes_and_comment_scenario :
    (∀ (n : Nat) (s : List Nat),
      persist (chainManifestImpl n) (chainPersistImpl n) s =
        PResult.ok n (s ++ List.range (n + 1))
      ∧ (List.range (n + 1)).length = n + 1)
    ∧ persist Comment.manifestImpl Comment.persistImpl ([] : Store) =
        PResult.ok { id := 1, post_id := 1, username := "user1" }
          [Row.author 1 "Author 1", Row.post 1 1 "Post 1", Row.comment 1 1 "user1"] :=
  ⟨fun n s => ⟨chain_persist_trace n s, List.length_range (n + 1)⟩, rfl⟩

/-- C6: for an entity whose manifesting declares no associations (an empty
registry), `persist_with` reduces to the single root store write: the drain
of the empty registry has no effect on the store. -/
theorem claim_C6_empty_registry_is_noop
    {σ T O ε : Type} (m : ManifestImpl σ T O) (p : PersistImpl σ ε T)
    (overrides : O) (s : σ) (entity : T)
    (h : m.manifest overrides = (entity, Associations.new)) :
    persist_with m p overrides s = p.persist s entity
    ∧ persist m p s = persist_with m p m.defaultOverrides s := by
  refine ⟨?_, rfl⟩
  simp only [persist_with, h, Associations.new, runPending]

/-- Witness for C6: persisting a default `Movie` performs exactly the one
`movie` insert. -/
theorem claim_C6_witness :
    persist_with Movie.manifestImpl Movie.persistImpl ({} : MovieBuilder) [] =
      Movie.persistImpl.persist [] { title := "Inception", year := 2010 } :=
  (claim_C6_empty_registry_is_noop Movie.manifestImpl Movie.persistImpl
    ({} : MovieBuilder) [] { title := "Inception", year := 2010 } rfl).1

/-- C3: `association` returns, synchronously, the entity obtained by
manifesting the dependency with default overrides, and appends exactly one
pending operation at the end of the registry; that operation is the deferred
full manifest-and-persist cycle (`assocDeferred`, a second independent
invocation of the dependency's manifesting logic at default overrides via
`persist`), and when that second cycle succeeds the pending operation
succeeds with the store effects of the second cycle — the persisted value is
the one produced by the second call, not the value handed to the caller. -/
theorem claim_C3_association_manifests_now_persists_later
    {σ ε T O : Type} (m : ManifestImpl σ T O) (p : PersistImpl σ ε T)
    (a : Associations σ) :
    (association m p a).1 = manifest_with m m.defaultOverrides
    ∧ (association m p a).2.associations =
        a.associations ++ [fun st => eraseVal (assocDeferred m p st)]
    ∧ ∀ (s : σ) (t : T) (s' : σ), persist m p s = PResult.ok t s' →
        eraseVal (assocDeferred m p s) = PResult.ok () s' := by
  refine ⟨rfl, rfl, fun s t s' h => ?_⟩
  simp only [assocDeferred, h, eraseVal]

/-- Witness for C3 at the `Movie` entity on the empty store. -/
theorem claim_C3_witness :
    (association Movie.manifestImpl Movie.persistImpl Associations.new).1 =
      { title := "Inception", year := 2010 }
    ∧ eraseVal (assocDeferred Movie.manifestImpl Movie.persistImpl []) =
        PResult.ok () [Row.movie "Inception" 2010] := by
  obtain ⟨h1, _h2, h3⟩ :=
    claim_C3_association_manifests_now_persists_later
      Movie.manifestImpl Movie.persistImpl Associations.new
  exact ⟨h1.trans rfl,
    h3 [] { title := "Inception", year := 2010 } [Row.movie "Inception" 2010] rfl⟩

/-- C4 counterexample: when a dependency's store write fails during
draining, the enclosing call does not return an error value at all — the
`.unwrap()` in the drain loop panics, and the message it carries is the
fixed string substituted by `association`, not the store's own error
describing the failed capability. -/
theorem claim_C4_counterexample :
    persist failingDepManifestImpl Post.persistImpl ([] : Store) =
      PResult.panicked "failed to persist" []
    ∧ persist failingDepManifestImpl Post.persistImpl ([] : Store) ≠
        PResult.err "constraint violation on author name" [] :=
  ⟨rfl, fun h => nomatch h⟩

/-- C4 as amended: a failing pending operation is unconditionally fatal —
no retry and no partial success: the drain stops at the first failing
operation, no later pending operation and not the root persistence
capability ever runs (the result does not depend on `rest` or on `p`) — but
the enclosing `persist_with` call terminates in a panic (the drain loop's
`.unwrap()`) carrying only the failing operation's own error message, rather
than returning an error value identifying the failed capability; the store
writes already performed by earlier operations (the fold over `fs`) and by
the failing operation itself (`g`) remain in the store. -/
theorem claim_C4_dependency_failure_panics
    {σ T O ε : Type} (m : ManifestImpl σ T O) (p : PersistImpl σ ε T)
    (overrides : O) (s : σ) (entity : T) (fs : List (σ → σ)) (msg : String)
    (g : σ → σ) (rest : List (PendingOp σ))
    (h : m.manifest overrides =
      (entity,
        ⟨fs.map okOp ++ (fun st => PResult.err msg (g st)) :: rest⟩)) :
    persist_with m p overrides s =
      PResult.panicked msg (g (fs.foldl (fun st f => f st) s)) := by
  simp only [persist_with, h, runPending_stops_at_error]

/-- Witness for C4 as amended: the concrete failing dependency of
`claim_C4_counterexample`, driven through the general theorem. -/
theorem claim_C4_witness :
    persist_with failingDepManifestImpl Post.persistImpl ({} : PostBuilder) [] =
      PResult.panicked "failed to persist" [] :=
  claim_C4_dependency_failure_panics failingDepManifestImpl Post.persistImpl
    ({} : PostBuilder) [] { id := 1, author_id := 1, title := "Post 1" } []
    "failed to persist" (fun st => st) [] rfl

/-- C5: every field present in the overrides appears verbatim in the
manifested entity, for each entity type of the repository; and supplying the
association-backed field (`Post.author_id`, `Comment.post_id`) yields an
empty registry — the association-registering default is never invoked for a
supplied field. -/
theorem claim_C5_overrides_used_verbatim :
    (∀ (o : MovieBuilder) (t : String),
      (Movie.manifest { o with title := some t }).1.title = t)
    ∧ (∀ (o : MovieBuilder) (y : Nat),
      (Movie.manifest { o with year := some y }).1.year = y)
    ∧ (∀ (o : AuthorBuilder) (i : Nat),
      (Author.manifest { o with id := some i }).1.id = i)
    ∧ (∀ (o : AuthorBuilder) (n : String),
      (Author.manifest { o with name := some n }).1.name = n)
    ∧ (∀ (o : PostBuilder) (i : Nat),
      (Post.manifest { o with id := some i }).1.id = i)
    ∧ (∀ (o : PostBuilder) (a : Nat),
      (Post.manifest { o with author_id := some a }).1.author_id = a
      ∧ (Post.manifest { o with author_id := some a }).2.associations = [])
    ∧ (∀ (o : PostBuilder) (t : String),
      (Post.manifest { o with title := some t }).1.title = t)
    ∧ (∀ (o : CommentBuilder) (i : Nat),
      (Comment.manifest { o with id := some i }).1.id = i)
    ∧ (∀ (o : CommentBuilder) (pid : Nat),
      (Comment.manifest { o with post_id := some pid }).1.post_id = pid
      ∧ (Comment.manifest { o with post_id := some pid }).2.associations = [])
    ∧ (∀ (o : CommentBuilder) (u : String),
      (Comment.manifest { o with username := some u }).1.username = u) :=
  ⟨fun _ _ => rfl, fun _ _ => rfl, fun _ _ => rfl, fun _ _ => rfl,
   fun _ _ => rfl, fun _ _ => ⟨rfl, rfl⟩, fun _ _ => rfl,
   fun _ _ => rfl, fun _ _ => ⟨rfl, rfl⟩, fun _ _ => rfl⟩

/-- C7: on a fresh `Sequence`, `next` called `k` times yields
`produce 1, produce 2, ..., produce k` in order; `take n` after `next` has
been called `j` times yields `produce (j+1), ..., produce (j+n)` in order;
and on any sequence state, `take n` returns exactly the values and final
state of `n` successive calls to `next`. -/
theorem claim_C7_sequence_next_take {α : Type u} (f : Nat → α) (k j n : Nat)
    (s : Sequence α) :
    ((Sequence.new f).nextCalls k).1 = (List.range' 1 k).map f
    ∧ ((Sequence.new f).nextCalls j).2.take n =
        ((List.range' (j + 1) n).map f, Sequence.mk (j + 1 + n) f)
    ∧ s.take n = s.nextCalls n := by
  refine ⟨?_, ?_, ?_⟩
  · rw [show Sequence.new f = Sequence.mk 1 f from rfl, Sequence.nextCalls_closed]
  · rw [show Sequence.new f = Sequence.mk 1 f from rfl, Sequence.nextCalls_closed,
      Sequence.take_closed]
    have h1 : 1 + j = j + 1 := by omega
    rw [h1]
  · cases s with
    | mk c p => rw [Sequence.take_closed, Sequence.nextCalls_closed]

/-- C8: manifesting a `Movie` with no overrides yields title `Inception`
and year 2010; manifesting with only the title overridden to
`The Social Network` keeps the default year 2010. -/
theorem claim_C8_movie_scenarios :
    manifest Movie.manifestImpl = { title := "Inception", year := 2010 }
    ∧ manifest_with Movie.manifestImpl { title := some "The Social Network" } =
        { title := "The Social Network", year := 2010 } :=
  ⟨rfl, rfl⟩

/-- C9: the pending operation appended by `association` replaces any error
returned by the dependency's persistence cycle — whatever its type `ε` and
value — with the fixed opaque string `failed to persist`; the original error
never reaches the drain loop. -/
theorem claim_C9_association_erases_error
    {σ ε T O : Type} (m : ManifestImpl σ T O) (p : PersistImpl σ ε T)
    (a : Associations σ) (s s' : σ) (e : ε)
    (h : persist m p s = PResult.err e s') :
    ∃ op : PendingOp σ, (association m p a).2.associations = a.associations ++ [op]
      ∧ op s = PResult.err "failed to persist" s' := by
  refine ⟨fun st => eraseVal (assocDeferred m p st), rfl, ?_⟩
  simp only [assocDeferred, h, eraseVal]

/-- Witness for C9: an `Author` dependency whose store write fails with a
descriptive error surfaces only the fixed opaque message. -/
theorem claim_C9_witness :
    ∃ op : PendingOp Store,
      (association Author.manifestImpl failingAuthorPersistImpl
          Associations.new).2.associations = [] ++ [op]
      ∧ op [] = PResult.err "failed to persist" [] :=
  claim_C9_association_erases_error Author.manifestImpl failingAuthorPersistImpl
    Associations.new [] [] "constraint violation on author name" rfl

/-- C10: `manifest_with` (and `manifest`, its default-overrides form) return
only the in-memory entity, discarding the registry produced by the entity's
manifesting logic without executing anything: the result takes no store
handle and is unchanged under an arbitrary replacement of the registry
component, so no deferred persistence operation can influence — or be run
by — a manifest call. -/
theorem claim_C10_manifest_discards_registry
    {σ T O : Type} (m : ManifestImpl σ T O) (overrides : O)
    (g : O → Associations σ) :
    manifest_with m overrides = (m.manifest overrides).1
    ∧ manifest m = (m.manifest m.defaultOverrides).1
    ∧ manifest_with (withRegistry m g) overrides = manifest_with m overrides :=
  ⟨rfl, rfl, rfl⟩

end Malignius
